import Mathlib

/-!
A shallow embedding of the flask photo-relay server (`app.py` plus the
socket/route file): the token check, the `/upload` handler, the
`/api/latest` and `/api/all` listings, and the `command` relay of the
realtime hub.  Python strings are Lean `String`s (code-point order agrees
with Python's lexicographic comparison on the characters that occur here),
the uploads directory is an association list from filename to file data,
and wall-clock readings (`datetime.now()`, `time.time()`) are explicit
parameters.  Python `float(...)` parsing is abstracted as a parameter
`pf : String → Option ℚ`; only its success or failure matters to the
handler's branching.  Filesystem faults (disk full, permission denied)
are injected through the Boolean oracles `saveOk` and `metaSaveOk`.
-/

/-- Values that can appear in the JSON metadata sidecar: the result of a
successful `float(val)` parse, a raw string, or the integer
`received_ts`. -/
inductive MetaValue where
  | num (q : ℚ)
  | str (s : String)
  | int (n : Int)
deriving DecidableEq

/-- A metadata document: an insertion-ordered dict, as built by the
upload handler and serialized by `json.dump`. -/
abbrev Meta := List (String × MetaValue)

/-- A file in the uploads directory: either raw image bytes, or a JSON
sidecar.  `meta (some m)` is a sidecar that `json.load` parses to `m`;
`meta none` is a sidecar that exists but fails to parse (raises). -/
inductive FileData where
  | img (content : List Nat)
  | meta (parse : Option Meta)
deriving DecidableEq

/-- The uploads directory: an association list from filename to file
data, in creation order. -/
abbrev Store := List (String × FileData)

/-- `os.listdir(UPLOAD_DIR)`: the names of the files in the store. -/
def listdir (st : Store) : List String := st.map Prod.fst

/-- Reading a file by name (`os.path.exists` + `open`). -/
def lookupFile (st : Store) (name : String) : Option FileData :=
  List.lookup name st

/-- Writing a file: overwrites an existing file of the same name, else
creates a new directory entry. -/
def writeFile (st : Store) (name : String) (d : FileData) : Store :=
  if st.any (fun p => p.1 == name) then
    st.map (fun p => if p.1 == name then (name, d) else p)
  else st ++ [(name, d)]

/-- Python `a or b` on optional strings: `None` and `""` are falsy, so
they fall through to the second operand (`req.headers.get("X-API-Key")
or req.args.get("token")`). -/
def pyOrStr : Option String → Option String → Option String
  | some h, b => if h = "" then b else some h
  | none, b => b

/-- `check_token` from `app.py`: the effective token (header
`X-API-Key`, falling back to query parameter `token`) must equal the
configured `API_TOKEN`; a missing token (`None`) never equals it. -/
def check_token (headerKey queryToken : Option String) (apiToken : String) : Bool :=
  match pyOrStr headerKey queryToken with
  | some t => t == apiToken
  | none => false

/-- Python truthiness of `request.form.get(key)`: `None` and the empty
string are falsy. -/
def pyTruthy : Option String → Bool
  | none => false
  | some s => s != ""

/-- `str.lower()` (ASCII case folding suffices for the names here). -/
def pyLower (s : String) : String := ⟨s.data.map Char.toLower⟩

/-- `str.endswith(suffix)`. -/
def pyEndsWith (s suffix : String) : Bool := decide (suffix.data <:+ s.data)

/-- The filter used by both listings: `f.lower().endswith('.jpg')`. -/
def isJpgName (f : String) : Bool := pyEndsWith (pyLower f) ".jpg"

/-- `os.path.splitext(s)[0]`: everything before the last dot, except
that a name whose only dots are leading (e.g. `".json"`) has no
extension and is returned whole. -/
def pySplitextStem (s : String) : String :=
  let cs := s.data
  let extRev := cs.reverse.takeWhile (fun c => c ≠ '.')
  if extRev.length = cs.length then s
  else
    let i := cs.length - extRev.length - 1
    if (cs.take i).any (fun c => c ≠ '.') then ⟨cs.take i⟩ else s

/-- A wall-clock reading at second granularity, as produced by
`datetime.now()`. -/
structure DateTime where
  year : Nat
  month : Nat
  day : Nat
  hour : Nat
  minute : Nat
  second : Nat
deriving DecidableEq

/-- Field ranges of a real `datetime.now()` reading (four-digit year). -/
def DateTime.Valid (d : DateTime) : Prop :=
  1000 ≤ d.year ∧ d.year ≤ 9999 ∧ 1 ≤ d.month ∧ d.month ≤ 12 ∧
  1 ≤ d.day ∧ d.day ≤ 31 ∧ d.hour ≤ 23 ∧ d.minute ≤ 59 ∧ d.second ≤ 59

instance (d : DateTime) : Decidable d.Valid := by
  unfold DateTime.Valid; infer_instance

/-- The decimal digit characters. -/
def digitChar (n : Nat) : Char :=
  match n with
  | 0 => '0' | 1 => '1' | 2 => '2' | 3 => '3' | 4 => '4'
  | 5 => '5' | 6 => '6' | 7 => '7' | 8 => '8' | _ => '9'

/-- The two decimal digits of a zero-padded two-width field (`%m`, `%d`,
`%H`, `%M`, `%S`). -/
def digits2 (n : Nat) : List Nat := [n / 10 % 10, n % 10]

/-- The four decimal digits of `%Y` for a four-digit year. -/
def digits4 (n : Nat) : List Nat :=
  [n / 1000 % 10, n / 100 % 10, n / 10 % 10, n % 10]

/-- Digit sequence of the date half `YYYYMMDD`. -/
def DateTime.dateDigits (d : DateTime) : List Nat :=
  digits4 d.year ++ digits2 d.month ++ digits2 d.day

/-- Digit sequence of the time half `HHMMSS`. -/
def DateTime.timeDigits (d : DateTime) : List Nat :=
  digits2 d.hour ++ digits2 d.minute ++ digits2 d.second

/-- `datetime.now().strftime('%Y%m%d_%H%M%S')`. -/
def strftimeTS (d : DateTime) : String :=
  ⟨(d.dateDigits.map digitChar) ++ '_' :: (d.timeDigits.map digitChar)⟩

/-- The generated image filename `photo_<YYYYMMDD_HHMMSS>.jpg`. -/
def photoFilename (d : DateTime) : String :=
  "photo_" ++ strftimeTS d ++ ".jpg"

/-- The sidecar name derived in the handler:
`os.path.splitext(fname)[0] + '.json'`. -/
def sidecarName (d : DateTime) : String :=
  pySplitextStem (photoFilename d) ++ ".json"

/-- Chronological order of a wall-clock reading, encoded as a single
numeral `YYYYMMDDHHMMSS`; on `Valid` readings, `code` comparison is
exactly chronological comparison. -/
def DateTime.code (d : DateTime) : Nat :=
  ((((d.year * 100 + d.month) * 100 + d.day) * 100 + d.hour) * 100 +
    d.minute) * 100 + d.second

/-- The `photo` part of the multipart form. -/
structure PhotoFile where
  filename : String
  content : List Nat

/-- An inbound `/upload` request: auth material, the optional `photo`
file part, and the form fields. -/
structure UploadRequest where
  headerKey : Option String
  queryToken : Option String
  photo : Option PhotoFile
  form : String → Option String

/-- The JSON body of an `/upload` response, by status:
401 `{ok:false,error:'Unauthorized'}`, 400 `{ok:false,error}`,
500 `{ok:false,error:'Error saving file: ...'}` (exception text
abstracted), 200 `{ok:true,filename,timestamp}`. -/
inductive UploadResponse where
  | unauthorized
  | badRequest (error : String)
  | storageError
  | success (filename : String) (timestamp : Int)
deriving DecidableEq

/-- HTTP status of an `/upload` response. -/
def UploadResponse.status : UploadResponse → Nat
  | unauthorized => 401
  | badRequest _ => 400
  | storageError => 500
  | success _ _ => 200

/-- The `ok` field of an `/upload` response body. -/
def UploadResponse.okField : UploadResponse → Bool
  | success _ _ => true
  | _ => false

/-- The `new_photo` event broadcast to all connected clients. -/
structure NewPhotoEvent where
  filename : String
  timestamp : Int
  has_location : Bool
deriving DecidableEq

/-- The recognized optional metadata form fields, in loop order. -/
def metaKeys : List String := ["lat", "lon", "accuracy", "location_ts"]

/-- One iteration of the metadata loop: `val = request.form.get(key)`;
skipped when falsy; `float(val)` on success stores a number, on
`ValueError` stores the raw string. -/
def metaEntry (pf : String → Option ℚ) (form : String → Option String)
    (key : String) : Option MetaValue :=
  match form key with
  | none => none
  | some val =>
    if val = "" then none
    else
      match pf val with
      | some q => some (.num q)
      | none => some (.str val)

/-- The dict entries contributed by one key (zero or one). -/
def entryList (pf : String → Option ℚ) (form : String → Option String)
    (key : String) : Meta :=
  match metaEntry pf form key with
  | none => []
  | some v => [(key, v)]

/-- The metadata dict built by the loop over
`['lat', 'lon', 'accuracy', 'location_ts']`, unrolled. -/
def buildMeta (pf : String → Option ℚ) (form : String → Option String) : Meta :=
  entryList pf form "lat" ++ entryList pf form "lon" ++
  entryList pf form "accuracy" ++ entryList pf form "location_ts"

/-- `'k' in meta` on the metadata dict. -/
def memKey (m : Meta) (k : String) : Bool := m.any (fun p => p.1 == k)

/-- The full sidecar document: the loop's entries followed by the
system-assigned `received_ts` and `photo_filename`. -/
def fullMeta (pf : String → Option ℚ) (form : String → Option String)
    (nowEpoch : Int) (fname : String) : Meta :=
  buildMeta pf form ++ [("received_ts", .int nowEpoch), ("photo_filename", .str fname)]

/-- Outcome of one `/upload` request: the HTTP response, the store after
the request, and the broadcast events emitted. -/
structure UploadResult where
  response : UploadResponse
  store : Store
  events : List NewPhotoEvent
deriving DecidableEq

/-- The `/upload` handler.  `now` is the `datetime.now()` reading used
for the filename, `nowEpoch` the `int(time.time())` reading stored as
`received_ts`; `saveOk` injects failure of `f.save`, `metaSaveOk` of the
sidecar write (a failed write leaves no file).  Mirrors the source: token
check, then presence of the `photo` part, then non-empty filename, then
the image write (500 aborts before metadata and broadcast), then the
best-effort sidecar write, then the `new_photo` broadcast, then 200. -/
def uploadHandler (pf : String → Option ℚ) (apiToken : String)
    (now : DateTime) (nowEpoch : Int) (saveOk metaSaveOk : Bool)
    (req : UploadRequest) (st : Store) : UploadResult :=
  if check_token req.headerKey req.queryToken apiToken then
    match req.photo with
    | none => ⟨.badRequest "No file part: photo", st, []⟩
    | some f =>
      if f.filename = "" then ⟨.badRequest "Empty filename", st, []⟩
      else
        let fname := photoFilename now
        if saveOk then
          let st1 := writeFile st fname (.img f.content)
          let meta := fullMeta pf req.form nowEpoch fname
          let st2 :=
            if metaSaveOk then
              writeFile st1 (pySplitextStem fname ++ ".json") (.meta (some meta))
            else st1
          ⟨.success fname nowEpoch, st2,
            [⟨fname, nowEpoch, memKey meta "lat" && memKey meta "lon"⟩]⟩
        else ⟨.storageError, st, []⟩
  else ⟨.unauthorized, st, []⟩

/-- The jpg names seen by the listings:
`[f for f in os.listdir(UPLOAD_DIR) if f.lower().endswith('.jpg')]`. -/
def jpgFiles (st : Store) : List String :=
  (listdir st).filter (fun f => isJpgName f)

/-- Python `sorted(l, reverse=True)` on strings.  Any correct sort
agrees with Python's here: string comparison is total and antisymmetric,
so the descending sorted list is unique. -/
def pySortedDesc (l : List String) : List String :=
  l.insertionSort (fun a b => b ≤ a)

/-- Body of a `/api/latest` response: `{ok:true, filename, timestamp}`
or `{ok:true, filename:null}`; both are HTTP 200.  (The `except` branch
is reachable only through OS-level faults, which are outside the
model.) -/
inductive LatestResponse where
  | found (filename : String) (timestamp : Int)
  | empty
deriving DecidableEq

/-- HTTP status of a `/api/latest` response: both shapes are 200. -/
def LatestResponse.status : LatestResponse → Nat
  | found _ _ => 200
  | empty => 200

/-- The `ok` field of a `/api/latest` body: true in both shapes. -/
def LatestResponse.okField : LatestResponse → Bool
  | found _ _ => true
  | empty => true

/-- The `filename` field of a `/api/latest` body: `null` on the empty
store. -/
def LatestResponse.filenameField : LatestResponse → Option String
  | found f _ => some f
  | empty => none

/-- `/api/latest`: sort the jpg names descending; empty store yields
`{ok:true, filename:null}`, else the first name with its mtime
(`getmtime` is the filesystem mtime oracle). -/
def api_latest (getmtime : String → Int) (st : Store) : LatestResponse :=
  let files := pySortedDesc (jpgFiles st)
  match files with
  | [] => .empty
  | latest :: _ => .found latest (getmtime latest)

/-- One element of the `files` array of `/api/all`: `metadata` is `null`
when no sidecar exists. -/
structure AllEntry where
  filename : String
  metadata : Option Meta
deriving DecidableEq

/-- Body of a `/api/all` response: `200 {ok:true, files:[...]}`, or the
`except` branch `500 {ok:false, error:str(e)}` (message abstracted). -/
inductive AllResponse where
  | ok (files : List AllEntry)
  | error
deriving DecidableEq

/-- Reading the sidecar of one jpg: `some none` when no sidecar file
exists (`metadata` stays `None`), `some (some m)` when `json.load`
parses it to `m`, and `none` when the file exists but `json.load`
raises. -/
def readMeta (st : Store) (j : String) : Option (Option Meta) :=
  match lookupFile st (pySplitextStem j ++ ".json") with
  | none => some none
  | some (.meta (some m)) => some (some m)
  | some (.meta none) => none
  | some (.img _) => none

/-- The loop of `/api/all`: builds the entry list, propagating a raised
`json.load` exception (`none`) out of the whole loop. -/
def collectEntries (st : Store) : List String → Option (List AllEntry)
  | [] => some []
  | j :: rest =>
    match readMeta st j with
    | none => none
    | some m => (collectEntries st rest).map (fun es => ⟨j, m⟩ :: es)

/-- `/api/all`: jpg names sorted descending, each paired with its parsed
sidecar or `null`; a raised `json.load` anywhere aborts the whole
request into the `except` branch (HTTP 500). -/
def api_all (st : Store) : AllResponse :=
  match collectEntries st (pySortedDesc (jpgFiles st)) with
  | some items => .ok items
  | none => .error

/-- HTTP status of a `/api/all` response. -/
def AllResponse.status : AllResponse → Nat
  | ok _ => 200
  | error => 500

/-- The filenames of a successful `/api/all` listing. -/
def AllResponse.fileNames : AllResponse → Option (List String)
  | ok items => some (items.map (·.filename))
  | error => none

/-- A JSON value as it appears in a relayed command message. -/
inductive JVal where
  | str (s : String)
  | null
deriving DecidableEq

/-- A socket message payload: a JSON object. -/
abbrev MsgPayload := List (String × JVal)

/-- Python `dict.get(k)`: `None` when the key is absent. -/
def pyDictGet (d : MsgPayload) (k : String) : JVal :=
  match d.lookup k with
  | some v => v
  | none => .null

/-- The `command` handler of the hub: `ctype = (data or {}).get('type')`
then `emit('command', {'type': ctype}, broadcast=True)` — the message is
delivered to every currently connected session, the sender included, and
`ctype` is never inspected. -/
def on_command (connected : List String) (data : Option MsgPayload) :
    List (String × MsgPayload) :=
  let ctype := pyDictGet (data.getD []) "type"
  connected.map (fun sid => (sid, [("type", ctype)]))

/-- One upload in a run: the two clock readings and the request. -/
structure UploadStep where
  dt : DateTime
  epoch : Int
  req : UploadRequest

/-- A sequence of fault-free uploads applied to a store. -/
def runUploads (pf : String → Option ℚ) (apiToken : String)
    (steps : List UploadStep) (st : Store) : Store :=
  steps.foldl
    (fun s step => (uploadHandler pf apiToken step.dt step.epoch true true step.req s).store)
    st

/-- The step's sidecar document. -/
def stepMeta (pf : String → Option ℚ) (s : UploadStep) : Meta :=
  fullMeta pf s.req.form s.epoch (photoFilename s.dt)

/-- The two directory entries one fault-free valid upload creates. -/
def stepFiles (pf : String → Option ℚ) (s : UploadStep) : Store :=
  [(photoFilename s.dt, .img ((s.req.photo.getD ⟨"", []⟩).content)),
   (sidecarName s.dt, .meta (some (stepMeta pf s)))]

/-- A step that takes the success path: valid token, `photo` part
present with a non-empty filename, and an in-range clock reading. -/
def goodStep (apiToken : String) (s : UploadStep) : Prop :=
  s.dt.Valid ∧
  check_token s.req.headerKey s.req.queryToken apiToken = true ∧
  ∃ f, s.req.photo = some f ∧ f.filename ≠ ""

/-- Numeric value of a digit sequence, most significant digit first. -/
def natOfDigits : List Nat → Nat
  | [] => 0
  | d :: ds => d * 10 ^ ds.length + natOfDigits ds

instance instIsTotalStringGe : IsTotal String (fun a b => b ≤ a) :=
  ⟨fun a b => le_total b a⟩

instance instIsTransStringGe : IsTrans String (fun a b => b ≤ a) :=
  ⟨fun _ _ _ h1 h2 => le_trans h2 h1⟩

instance instIsAntisymmStringGe : IsAntisymm String (fun a b => b ≤ a) :=
  ⟨fun _ _ h1 h2 => le_antisymm h2 h1⟩

/-- Lexicographic comparison of two cons cells: strictly smaller head,
or equal heads and strictly smaller tails. -/
theorem lex_cons_iff {a b : Char} {l1 l2 : List Char} :
    List.Lex (· < ·) (a :: l1) (b :: l2) ↔
      a < b ∨ (a = b ∧ List.Lex (· < ·) l1 l2) := by
  constructor
  · intro h
    cases h with
    | cons h => exact Or.inr ⟨rfl, h⟩
    | rel h => exact Or.inl h
  · intro h
    rcases h with h | ⟨rfl, h⟩
    · exact List.Lex.rel h
    · exact List.Lex.cons h

/-- Strict lexicographic order is irreflexive. -/
theorem lex_irrefl (l : List Char) : ¬ List.Lex (· < ·) l l := by
  induction l with
  | nil => intro h; cases h
  | cons a t ih =>
    intro h
    rcases lex_cons_iff.mp h with h1 | ⟨_, h2⟩
    · exact lt_irrefl a h1
    · exact ih h2

/-- Lexicographic comparison through equal-length prefixes. -/
theorem lex_append_iff : ∀ (u1 u2 v1 v2 : List Char), u1.length = u2.length →
    (List.Lex (· < ·) (u1 ++ v1) (u2 ++ v2) ↔
      List.Lex (· < ·) u1 u2 ∨ (u1 = u2 ∧ List.Lex (· < ·) v1 v2)) := by
  intro u1
  induction u1 with
  | nil =>
    intro u2 v1 v2 h
    cases u2 with
    | nil => simp
    | cons b s => simp at h
  | cons a t ih =>
    intro u2 v1 v2 h
    cases u2 with
    | nil => simp at h
    | cons b s =>
      have hlen : t.length = s.length := by simpa using h
      rw [List.cons_append, List.cons_append, lex_cons_iff, lex_cons_iff,
        ih s v1 v2 hlen]
      simp only [List.cons.injEq]
      tauto

/-- Digit characters compare exactly like the digits they denote. -/
theorem digitChar_lt_iff : ∀ a < 10, ∀ b < 10,
    (digitChar a < digitChar b ↔ a < b) := by decide

/-- Digit characters are distinct for distinct digits. -/
theorem digitChar_inj : ∀ a < 10, ∀ b < 10,
    (digitChar a = digitChar b ↔ a = b) := by decide

/-- `str.lower()` leaves digit characters unchanged. -/
theorem toLower_digitChar : ∀ a < 10, Char.toLower (digitChar a) = digitChar a := by
  decide

/-- A digit sequence denotes a value below `10 ^ length`. -/
theorem natOfDigits_lt (ds : List Nat) (h : ∀ x ∈ ds, x < 10) :
    natOfDigits ds < 10 ^ ds.length := by
  induction ds with
  | nil => simp [natOfDigits]
  | cons d t ih =>
    have hd : d < 10 := h d (List.mem_cons_self d t)
    have ht := ih (fun x hx => h x (List.mem_cons_of_mem _ hx))
    have h1 : (d + 1) * 10 ^ t.length ≤ 10 * 10 ^ t.length :=
      mul_le_mul_right' (by omega) _
    rw [add_mul, one_mul] at h1
    calc d * 10 ^ t.length + natOfDigits t
        < d * 10 ^ t.length + 10 ^ t.length := by exact add_lt_add_left ht _
      _ ≤ 10 * 10 ^ t.length := h1
      _ = 10 ^ (t.length + 1) := by rw [pow_succ]; ring

/-- Splitting a digit sequence splits its value. -/
theorem natOfDigits_append (xs ys : List Nat) :
    natOfDigits (xs ++ ys) = natOfDigits xs * 10 ^ ys.length + natOfDigits ys := by
  induction xs with
  | nil => simp [natOfDigits]
  | cons d t ih =>
    simp only [List.cons_append, natOfDigits, List.append_eq, List.length_append,
      ih, pow_add]
    ring

/-- `digits2` denotes its argument for two-digit values. -/
theorem natOfDigits_digits2 (n : Nat) (h : n < 100) : natOfDigits (digits2 n) = n := by
  simp only [digits2, natOfDigits, List.length_cons, List.length_nil]
  omega

/-- `digits4` denotes its argument for four-digit values. -/
theorem natOfDigits_digits4 (n : Nat) (h : n < 10000) : natOfDigits (digits4 n) = n := by
  simp only [digits4, natOfDigits, List.length_cons, List.length_nil]
  omega

/-- All entries of `digits2` are digits. -/
theorem digits2_bound (n : Nat) : ∀ x ∈ digits2 n, x < 10 := by
  intro x hx
  simp only [digits2, List.mem_cons, List.not_mem_nil, or_false] at hx
  rcases hx with rfl | rfl <;> omega

/-- All entries of `digits4` are digits. -/
theorem digits4_bound (n : Nat) : ∀ x ∈ digits4 n, x < 10 := by
  intro x hx
  simp only [digits4, List.mem_cons, List.not_mem_nil, or_false] at hx
  rcases hx with rfl | rfl | rfl | rfl <;> omega

/-- Comparing `a * X + nt` against `b * X + ns` with `nt, ns < X` is
positional comparison. -/
theorem block_lt_iff {a b nt ns X : Nat} (h1 : nt < X) (h2 : ns < X) :
    a * X + nt < b * X + ns ↔ a < b ∨ (a = b ∧ nt < ns) := by
  constructor
  · intro h
    rcases Nat.lt_trichotomy a b with h3 | h3 | h3
    · exact Or.inl h3
    · subst h3
      exact Or.inr ⟨rfl, lt_of_add_lt_add_left h⟩
    · exfalso
      have hba : (b + 1) * X ≤ a * X := mul_le_mul_right' (by omega) _
      rw [add_mul, one_mul] at hba
      have hb' : b * X + ns < b * X + X := add_lt_add_left h2 _
      linarith
  · rintro (h | ⟨rfl, h⟩)
    · have hab : (a + 1) * X ≤ b * X := mul_le_mul_right' (by omega) _
      rw [add_mul, one_mul] at hab
      have ha' : a * X + nt < a * X + X := add_lt_add_left h1 _
      linarith
    · exact add_lt_add_left h _

/-- Equality of positional blocks is positionwise equality. -/
theorem block_eq_iff {a b nt ns X : Nat} (h1 : nt < X) (h2 : ns < X) :
    a * X + nt = b * X + ns ↔ a = b ∧ nt = ns := by
  constructor
  · intro h
    rcases Nat.lt_trichotomy a b with h3 | h3 | h3
    · exact absurd h (ne_of_lt ((block_lt_iff h1 h2).mpr (Or.inl h3)))
    · subst h3
      exact ⟨rfl, Nat.add_left_cancel h⟩
    · exact absurd h.symm (ne_of_lt ((block_lt_iff h2 h1).mpr (Or.inl h3)))
  · rintro ⟨rfl, rfl⟩
    rfl

/-- Lexicographic comparison of equal-length digit-character sequences
is numeric comparison of their values. -/
theorem lex_map_digitChar : ∀ (as bs : List Nat), as.length = bs.length →
    (∀ x ∈ as, x < 10) → (∀ x ∈ bs, x < 10) →
    (List.Lex (· < ·) (as.map digitChar) (bs.map digitChar) ↔
      natOfDigits as < natOfDigits bs) := by
  intro as
  induction as with
  | nil =>
    intro bs hlen _ _
    cases bs with
    | nil => simp [natOfDigits]
    | cons b s => simp at hlen
  | cons a t ih =>
    intro bs hlen ha hb
    cases bs with
    | nil => simp at hlen
    | cons b s =>
      have hlen' : t.length = s.length := by simpa using hlen
      have hat : ∀ x ∈ t, x < 10 := fun x hx => ha x (List.mem_cons_of_mem _ hx)
      have hbs : ∀ x ∈ s, x < 10 := fun x hx => hb x (List.mem_cons_of_mem _ hx)
      have ha0 : a < 10 := ha a (List.mem_cons_self a t)
      have hb0 : b < 10 := hb b (List.mem_cons_self b s)
      have hnt : natOfDigits t < 10 ^ s.length := hlen' ▸ natOfDigits_lt t hat
      have hns : natOfDigits s < 10 ^ s.length := natOfDigits_lt s hbs
      simp only [List.map_cons]
      rw [lex_cons_iff, ih s hlen' hat hbs, digitChar_lt_iff a ha0 b hb0,
        digitChar_inj a ha0 b hb0]
      simp only [natOfDigits, hlen']
      exact ((block_lt_iff hnt hns).symm)

/-- Mapping digits to their characters is injective. -/
theorem map_digitChar_eq_iff : ∀ (as bs : List Nat), as.length = bs.length →
    (∀ x ∈ as, x < 10) → (∀ x ∈ bs, x < 10) →
    (as.map digitChar = bs.map digitChar ↔ as = bs) := by
  intro as
  induction as with
  | nil =>
    intro bs hlen _ _
    cases bs with
    | nil => simp
    | cons b s => simp at hlen
  | cons a t ih =>
    intro bs hlen ha hb
    cases bs with
    | nil => simp at hlen
    | cons b s =>
      have hlen' : t.length = s.length := by simpa using hlen
      have hat : ∀ x ∈ t, x < 10 := fun x hx => ha x (List.mem_cons_of_mem _ hx)
      have hbs : ∀ x ∈ s, x < 10 := fun x hx => hb x (List.mem_cons_of_mem _ hx)
      have ha0 : a < 10 := ha a (List.mem_cons_self a t)
      have hb0 : b < 10 := hb b (List.mem_cons_self b s)
      simp only [List.map_cons, List.cons.injEq]
      rw [ih s hlen' hat hbs, digitChar_inj a ha0 b hb0]

/-- Equal-length digit sequences are equal exactly when their values
are. -/
theorem digits_eq_iff_natOfDigits : ∀ (as bs : List Nat), as.length = bs.length →
    (∀ x ∈ as, x < 10) → (∀ x ∈ bs, x < 10) →
    (as = bs ↔ natOfDigits as = natOfDigits bs) := by
  intro as
  induction as with
  | nil =>
    intro bs hlen _ _
    cases bs with
    | nil => simp
    | cons b s => simp at hlen
  | cons a t ih =>
    intro bs hlen ha hb
    cases bs with
    | nil => simp at hlen
    | cons b s =>
      have hlen' : t.length = s.length := by simpa using hlen
      have hat : ∀ x ∈ t, x < 10 := fun x hx => ha x (List.mem_cons_of_mem _ hx)
      have hbs : ∀ x ∈ s, x < 10 := fun x hx => hb x (List.mem_cons_of_mem _ hx)
      have hnt : natOfDigits t < 10 ^ s.length := hlen' ▸ natOfDigits_lt t hat
      have hns : natOfDigits s < 10 ^ s.length := natOfDigits_lt s hbs
      simp only [List.cons.injEq, natOfDigits, hlen', ih s hlen' hat hbs]
      exact ((block_eq_iff hnt hns).symm)

/-- The date half has eight digits. -/
theorem dateDigits_length (d : DateTime) : d.dateDigits.length = 8 := by
  simp [DateTime.dateDigits, digits4, digits2]

/-- The time half has six digits. -/
theorem timeDigits_length (d : DateTime) : d.timeDigits.length = 6 := by
  simp [DateTime.timeDigits, digits2]

/-- All date-half entries are digits. -/
theorem dateDigits_bound (d : DateTime) : ∀ x ∈ d.dateDigits, x < 10 := by
  intro x hx
  simp only [DateTime.dateDigits, List.mem_append] at hx
  rcases hx with (hx | hx) | hx
  · exact digits4_bound _ x hx
  · exact digits2_bound _ x hx
  · exact digits2_bound _ x hx

/-- All time-half entries are digits. -/
theorem timeDigits_bound (d : DateTime) : ∀ x ∈ d.timeDigits, x < 10 := by
  intro x hx
  simp only [DateTime.timeDigits, List.mem_append] at hx
  rcases hx with (hx | hx) | hx
  · exact digits2_bound _ x hx
  · exact digits2_bound _ x hx
  · exact digits2_bound _ x hx

/-- Value of the date half of a valid reading. -/
theorem natOfDigits_dateDigits (d : DateTime) (h : d.Valid) :
    natOfDigits d.dateDigits = (d.year * 100 + d.month) * 100 + d.day := by
  obtain ⟨h1, h2, h3, h4, h5, h6, _, _, _⟩ := h
  simp only [DateTime.dateDigits, natOfDigits_append, digits2, digits4, natOfDigits,
    List.append_eq, List.cons_append, List.nil_append, List.length_append,
    List.length_cons, List.length_nil, pow_succ, pow_zero]
  omega

/-- Value of the time half of a valid reading. -/
theorem natOfDigits_timeDigits (d : DateTime) (h : d.Valid) :
    natOfDigits d.timeDigits = (d.hour * 100 + d.minute) * 100 + d.second := by
  obtain ⟨_, _, _, _, _, _, h7, h8, h9⟩ := h
  simp only [DateTime.timeDigits, natOfDigits_append, digits2, natOfDigits,
    List.append_eq, List.cons_append, List.nil_append, List.length_append,
    List.length_cons, List.length_nil, pow_succ, pow_zero]
  omega

/-- The chronological code splits at the underscore. -/
theorem code_split (d : DateTime) :
    d.code = ((d.year * 100 + d.month) * 100 + d.day) * 1000000 +
      ((d.hour * 100 + d.minute) * 100 + d.second) := by
  unfold DateTime.code
  ring

/-- The time half of a valid reading is below `10 ^ 6`. -/
theorem timeCode_lt (d : DateTime) (h : d.Valid) :
    (d.hour * 100 + d.minute) * 100 + d.second < 1000000 := by
  obtain ⟨_, _, _, _, _, _, h7, h8, h9⟩ := h
  omega

/-- The character content of the formatted timestamp. -/
theorem strftimeTS_data (d : DateTime) :
    (strftimeTS d).data =
      (d.dateDigits.map digitChar) ++ '_' :: (d.timeDigits.map digitChar) := rfl

/-- The formatted timestamp has fifteen characters. -/
theorem strftimeTS_data_length (d : DateTime) : (strftimeTS d).data.length = 15 := by
  simp [strftimeTS_data, dateDigits_length, timeDigits_length]

/-- Lexicographic comparison of formatted timestamps of valid readings
is chronological comparison. -/
theorem strftimeTS_lt_iff (d1 d2 : DateTime) (h1 : d1.Valid) (h2 : d2.Valid) :
    strftimeTS d1 < strftimeTS d2 ↔ d1.code < d2.code := by
  have hdl : (d1.dateDigits.map digitChar).length = (d2.dateDigits.map digitChar).length := by
    rw [List.length_map, List.length_map, dateDigits_length, dateDigits_length]
  have hdlen : d1.dateDigits.length = d2.dateDigits.length := by
    rw [dateDigits_length, dateDigits_length]
  have htlen : d1.timeDigits.length = d2.timeDigits.length := by
    rw [timeDigits_length, timeDigits_length]
  rw [String.lt_iff_toList_lt]
  show List.Lex (· < ·) (strftimeTS d1).data (strftimeTS d2).data ↔ _
  rw [strftimeTS_data, strftimeTS_data,
    lex_append_iff _ _ _ _ hdl, lex_cons_iff,
    lex_map_digitChar _ _ hdlen (dateDigits_bound d1) (dateDigits_bound d2),
    lex_map_digitChar _ _ htlen (timeDigits_bound d1) (timeDigits_bound d2),
    map_digitChar_eq_iff _ _ hdlen (dateDigits_bound d1) (dateDigits_bound d2),
    digits_eq_iff_natOfDigits _ _ hdlen (dateDigits_bound d1) (dateDigits_bound d2),
    natOfDigits_dateDigits d1 h1, natOfDigits_dateDigits d2 h2,
    natOfDigits_timeDigits d1 h1, natOfDigits_timeDigits d2 h2,
    code_split d1, code_split d2]
  simp only [lt_self_iff_false, false_and, false_or, true_and]
  exact (block_lt_iff (timeCode_lt d1 h1) (timeCode_lt d2 h2)).symm

/-- Formatted timestamps of valid readings agree exactly when the
readings are simultaneous. -/
theorem strftimeTS_eq_iff (d1 d2 : DateTime) (h1 : d1.Valid) (h2 : d2.Valid) :
    strftimeTS d1 = strftimeTS d2 ↔ d1.code = d2.code := by
  have hdlen : d1.dateDigits.length = d2.dateDigits.length := by
    rw [dateDigits_length, dateDigits_length]
  have htlen : d1.timeDigits.length = d2.timeDigits.length := by
    rw [timeDigits_length, timeDigits_length]
  have hdl : (d1.dateDigits.map digitChar).length = (d2.dateDigits.map digitChar).length := by
    rw [List.length_map, List.length_map, dateDigits_length, dateDigits_length]
  constructor
  · intro h
    have hdata : (strftimeTS d1).data = (strftimeTS d2).data := by rw [h]
    rw [strftimeTS_data, strftimeTS_data] at hdata
    obtain ⟨hdate, htime⟩ := List.append_inj hdata hdl
    have htime' : d1.timeDigits.map digitChar = d2.timeDigits.map digitChar :=
      List.cons.inj htime |>.2
    have hd : d1.dateDigits = d2.dateDigits :=
      (map_digitChar_eq_iff _ _ hdlen (dateDigits_bound d1) (dateDigits_bound d2)).mp hdate
    have ht : d1.timeDigits = d2.timeDigits :=
      (map_digitChar_eq_iff _ _ htlen (timeDigits_bound d1) (timeDigits_bound d2)).mp htime'
    have hdn := (digits_eq_iff_natOfDigits _ _ hdlen (dateDigits_bound d1)
      (dateDigits_bound d2)).mp hd
    have htn := (digits_eq_iff_natOfDigits _ _ htlen (timeDigits_bound d1)
      (timeDigits_bound d2)).mp ht
    rw [natOfDigits_dateDigits d1 h1, natOfDigits_dateDigits d2 h2] at hdn
    rw [natOfDigits_timeDigits d1 h1, natOfDigits_timeDigits d2 h2] at htn
    rw [code_split d1, code_split d2, hdn, htn]
  · intro h
    rw [code_split d1, code_split d2] at h
    obtain ⟨hdn, htn⟩ := (block_eq_iff (timeCode_lt d1 h1) (timeCode_lt d2 h2)).mp h
    have hd : d1.dateDigits = d2.dateDigits := by
      rw [digits_eq_iff_natOfDigits _ _ hdlen (dateDigits_bound d1) (dateDigits_bound d2),
        natOfDigits_dateDigits d1 h1, natOfDigits_dateDigits d2 h2]
      exact hdn
    have ht : d1.timeDigits = d2.timeDigits := by
      rw [digits_eq_iff_natOfDigits _ _ htlen (timeDigits_bound d1) (timeDigits_bound d2),
        natOfDigits_timeDigits d1 h1, natOfDigits_timeDigits d2 h2]
      exact htn
    show (⟨_⟩ : String) = ⟨_⟩
    rw [hd, ht]

/-- The character content of a generated filename. -/
theorem photoFilename_data (d : DateTime) :
    (photoFilename d).data = "photo_".data ++ ((strftimeTS d).data ++ ".jpg".data) := by
  unfold photoFilename
  rw [String.data_append, String.data_append, List.append_assoc]

/-- Generated filenames of valid readings compare lexicographically
exactly as the readings compare chronologically. -/
theorem photoFilename_lt_iff (d1 d2 : DateTime) (h1 : d1.Valid) (h2 : d2.Valid) :
    photoFilename d1 < photoFilename d2 ↔ d1.code < d2.code := by
  have hts : List.Lex (· < ·) (strftimeTS d1).data (strftimeTS d2).data ↔
      d1.code < d2.code := by
    have h := strftimeTS_lt_iff d1 d2 h1 h2
    rw [String.lt_iff_toList_lt] at h
    exact h
  rw [String.lt_iff_toList_lt]
  show List.Lex (· < ·) (photoFilename d1).data (photoFilename d2).data ↔ _
  rw [photoFilename_data, photoFilename_data, lex_append_iff _ _ _ _ rfl,
    lex_append_iff _ _ _ _ (by rw [strftimeTS_data_length, strftimeTS_data_length])]
  constructor
  · rintro (h | ⟨-, h | ⟨-, h⟩⟩)
    · exact absurd h (lex_irrefl _)
    · exact hts.mp h
    · exact absurd h (lex_irrefl _)
  · intro h
    exact Or.inr ⟨rfl, Or.inl (hts.mpr h)⟩

/-- Generated filenames of valid readings coincide exactly for
simultaneous readings. -/
theorem photoFilename_eq_iff (d1 d2 : DateTime) (h1 : d1.Valid) (h2 : d2.Valid) :
    photoFilename d1 = photoFilename d2 ↔ d1.code = d2.code := by
  constructor
  · intro h
    have hdata : (photoFilename d1).data = (photoFilename d2).data := by rw [h]
    rw [photoFilename_data, photoFilename_data] at hdata
    have hmid := (List.append_inj hdata rfl).2
    have hts := (List.append_inj hmid
      (by rw [strftimeTS_data_length, strftimeTS_data_length])).1
    have hstr : strftimeTS d1 = strftimeTS d2 := congrArg String.mk hts
    exact (strftimeTS_eq_iff d1 d2 h1 h2).mp hstr
  · intro h
    unfold photoFilename
    rw [(strftimeTS_eq_iff d1 d2 h1 h2).mpr h]

/-- `takeWhile` passes over a block that satisfies the predicate. -/
theorem takeWhile_all_append (p : Char → Bool) (l1 l2 : List Char)
    (h : ∀ x ∈ l1, p x = true) :
    List.takeWhile p (l1 ++ l2) = l1 ++ List.takeWhile p l2 := by
  induction l1 with
  | nil => simp
  | cons a t ih =>
    rw [List.cons_append, List.takeWhile_cons, if_pos (h a (List.mem_cons_self a t)),
      ih (fun x hx => h x (List.mem_cons_of_mem _ hx)), List.cons_append]

/-- `os.path.splitext` on a name with a dot-free, nonempty extension
after a stem containing a non-dot character returns the stem. -/
theorem pySplitextStem_of_data (s : String) (A E : List Char)
    (hs : s.data = A ++ '.' :: E)
    (hA : ∃ c ∈ A, c ≠ '.') (hE : ∀ c ∈ E, c ≠ '.') :
    pySplitextStem s = ⟨A⟩ := by
  unfold pySplitextStem
  simp only [hs]
  have hrev : (A ++ '.' :: E).reverse.takeWhile (fun c => c ≠ '.') = E.reverse := by
    rw [List.reverse_append, List.reverse_cons, List.append_assoc,
      List.singleton_append,
      takeWhile_all_append _ _ _ (by
        intro x hx
        rw [List.mem_reverse] at hx
        simpa using hE x hx),
      List.takeWhile_cons]
    simp
  rw [hrev]
  have hlen : (A ++ '.' :: E).length = A.length + 1 + E.length := by
    simp [List.length_append]
    omega
  have hrevlen : E.reverse.length = E.length := List.length_reverse E
  rw [hrevlen, hlen, if_neg (by omega)]
  have hidx : A.length + 1 + E.length - E.length - 1 = A.length := by omega
  rw [hidx]
  have htake : (A ++ '.' :: E).take A.length = A := List.take_left A _
  rw [htake, if_pos]
  obtain ⟨c, hc, hcne⟩ := hA
  rw [List.any_eq_true]
  exact ⟨c, hc, by simpa using hcne⟩

/-- The stem of a generated filename is `photo_<ts>`. -/
theorem stem_photoFilename (d : DateTime) :
    pySplitextStem (photoFilename d) = "photo_" ++ strftimeTS d := by
  have hs : (photoFilename d).data =
      ("photo_".data ++ (strftimeTS d).data) ++ '.' :: ['j', 'p', 'g'] := by
    rw [photoFilename_data, ← List.append_assoc,
      show (".jpg".data : List Char) = '.' :: ['j', 'p', 'g'] from by decide]
  rw [pySplitextStem_of_data _ _ _ hs
    ⟨'p', by rw [List.mem_append]; left; decide, by decide⟩
    (by decide)]
  rfl

/-- The character content of a generated sidecar name. -/
theorem sidecarName_data (d : DateTime) :
    (sidecarName d).data = ("photo_".data ++ (strftimeTS d).data) ++ ".json".data := by
  unfold sidecarName
  rw [stem_photoFilename, String.data_append, String.data_append]

/-- Generated sidecar names of valid readings coincide exactly for
simultaneous readings. -/
theorem sidecarName_eq_iff (d1 d2 : DateTime) (h1 : d1.Valid) (h2 : d2.Valid) :
    sidecarName d1 = sidecarName d2 ↔ d1.code = d2.code := by
  constructor
  · intro h
    have hdata : (sidecarName d1).data = (sidecarName d2).data := by rw [h]
    rw [sidecarName_data, sidecarName_data] at hdata
    have hts := (List.append_inj hdata (by
      rw [List.length_append, List.length_append,
        strftimeTS_data_length, strftimeTS_data_length])).1
    have hts2 := (List.append_inj hts rfl).2
    have hstr : strftimeTS d1 = strftimeTS d2 := congrArg String.mk hts2
    exact (strftimeTS_eq_iff d1 d2 h1 h2).mp hstr
  · intro h
    unfold sidecarName photoFilename
    rw [(strftimeTS_eq_iff d1 d2 h1 h2).mpr h]

/-- `str.lower()` leaves a formatted timestamp unchanged. -/
theorem map_toLower_strftimeTS (d : DateTime) :
    (strftimeTS d).data.map Char.toLower = (strftimeTS d).data := by
  rw [strftimeTS_data, List.map_append, List.map_cons, List.map_map, List.map_map]
  have h1 : List.map (Char.toLower ∘ digitChar) d.dateDigits =
      List.map digitChar d.dateDigits :=
    List.map_congr_left (fun x hx => toLower_digitChar x (dateDigits_bound d x hx))
  have h2 : List.map (Char.toLower ∘ digitChar) d.timeDigits =
      List.map digitChar d.timeDigits :=
    List.map_congr_left (fun x hx => toLower_digitChar x (timeDigits_bound d x hx))
  rw [h1, h2, show Char.toLower '_' = '_' from by decide]

/-- `str.lower()` leaves a generated filename unchanged. -/
theorem pyLower_photoFilename (d : DateTime) :
    pyLower (photoFilename d) = photoFilename d := by
  show (⟨(photoFilename d).data.map Char.toLower⟩ : String) = photoFilename d
  rw [show (photoFilename d).data.map Char.toLower = (photoFilename d).data from by
    rw [photoFilename_data, List.map_append, List.map_append, map_toLower_strftimeTS]
    rw [show ("photo_".data.map Char.toLower) = "photo_".data from by decide]
    rw [show (".jpg".data.map Char.toLower) = ".jpg".data from by decide]]

/-- `str.lower()` leaves a generated sidecar name unchanged. -/
theorem pyLower_sidecarName (d : DateTime) :
    pyLower (sidecarName d) = sidecarName d := by
  show (⟨(sidecarName d).data.map Char.toLower⟩ : String) = sidecarName d
  rw [show (sidecarName d).data.map Char.toLower = (sidecarName d).data from by
    rw [sidecarName_data, List.map_append, List.map_append, map_toLower_strftimeTS]
    rw [show ("photo_".data.map Char.toLower) = "photo_".data from by decide]
    rw [show (".json".data.map Char.toLower) = ".json".data from by decide]]

/-- A generated filename passes the jpg filter. -/
theorem isJpgName_photoFilename (d : DateTime) : isJpgName (photoFilename d) = true := by
  unfold isJpgName pyEndsWith
  rw [pyLower_photoFilename]
  simp only [decide_eq_true_eq]
  rw [photoFilename_data, ← List.append_assoc]
  exact List.suffix_append _ _

/-- A generated sidecar name is rejected by the jpg filter. -/
theorem isJpgName_sidecarName (d : DateTime) : isJpgName (sidecarName d) = false := by
  unfold isJpgName pyEndsWith
  rw [pyLower_sidecarName]
  simp only [decide_eq_false_iff_not]
  intro hsuf
  obtain ⟨u, hu⟩ := hsuf
  have h1 : ((sidecarName d).data).getLast? = some 'n' := by
    rw [sidecarName_data, List.getLast?_append,
      show ((".json".data : List Char).getLast? = some 'n') from by decide]
    rfl
  have h2 : ((sidecarName d).data).getLast? = some 'g' := by
    rw [← hu, List.getLast?_append,
      show (((".jpg".data : List Char)).getLast? = some 'g') from by decide]
    rfl
  rw [h1] at h2
  simp at h2

/-- A generated filename has twenty-five characters. -/
theorem photoFilename_data_length (d : DateTime) :
    (photoFilename d).data.length = 25 := by
  rw [photoFilename_data, List.length_append, List.length_append,
    strftimeTS_data_length,
    show ("photo_".data : List Char).length = 6 from by decide,
    show (".jpg".data : List Char).length = 4 from by decide]

/-- A generated sidecar name has twenty-six characters. -/
theorem sidecarName_data_length (d : DateTime) :
    (sidecarName d).data.length = 26 := by
  rw [sidecarName_data, List.length_append, List.length_append,
    strftimeTS_data_length,
    show ("photo_".data : List Char).length = 6 from by decide,
    show (".json".data : List Char).length = 5 from by decide]

/-- A sidecar name is never an image name. -/
theorem sidecarName_ne_photoFilename (d1 d2 : DateTime) :
    sidecarName d1 ≠ photoFilename d2 := by
  intro h
  have hlen : (sidecarName d1).data.length = (photoFilename d2).data.length := by
    rw [h]
  rw [sidecarName_data_length, photoFilename_data_length] at hlen
  omega

/-- Writing a fresh name appends a directory entry. -/
theorem writeFile_fresh (st : Store) (name : String) (dta : FileData)
    (h : name ∉ listdir st) : writeFile st name dta = st ++ [(name, dta)] := by
  unfold writeFile
  rw [if_neg]
  intro hc
  rw [List.any_eq_true] at hc
  obtain ⟨p, hp, he⟩ := hc
  rw [beq_iff_eq] at he
  exact h (he ▸ List.mem_map_of_mem Prod.fst hp)

/-- Directory contents of concatenated stores. -/
theorem listdir_append (st1 st2 : Store) :
    listdir (st1 ++ st2) = listdir st1 ++ listdir st2 :=
  List.map_append Prod.fst st1 st2

/-- A fault-free upload through the success path appends exactly the
image and its sidecar, and emits one `new_photo` event. -/
theorem uploadHandler_success (pf : String → Option ℚ) (apiToken : String)
    (s : UploadStep) (st : Store) (hg : goodStep apiToken s)
    (hf1 : photoFilename s.dt ∉ listdir st)
    (hf2 : sidecarName s.dt ∉ listdir st) :
    uploadHandler pf apiToken s.dt s.epoch true true s.req st =
      ⟨.success (photoFilename s.dt) s.epoch, st ++ stepFiles pf s,
       [⟨photoFilename s.dt, s.epoch,
         memKey (stepMeta pf s) "lat" && memKey (stepMeta pf s) "lon"⟩]⟩ := by
  obtain ⟨hv, htok, f, hphoto, hfname⟩ := hg
  unfold uploadHandler
  rw [htok, if_pos rfl, hphoto]
  simp only [if_neg hfname, if_pos rfl]
  rw [writeFile_fresh st _ _ hf1]
  have hside : sidecarName s.dt ∉ listdir (st ++ [(photoFilename s.dt, .img f.content)]) := by
    rw [listdir_append]
    intro hmem
    rcases List.mem_append.mp hmem with hmem | hmem
    · exact hf2 hmem
    · simp only [listdir, List.map_cons, List.map_nil, List.mem_singleton] at hmem
      exact sidecarName_ne_photoFilename s.dt s.dt hmem
  rw [show pySplitextStem (photoFilename s.dt) ++ ".json" = sidecarName s.dt from rfl,
    writeFile_fresh _ _ _ hside]
  unfold stepFiles stepMeta
  rw [hphoto]
  simp [List.append_assoc, fullMeta]

/-- Running a sequence of fault-free success-path uploads with pairwise
distinct clock readings appends each step's two files in order. -/
theorem runUploads_eq (pf : String → Option ℚ) (apiToken : String) :
    ∀ (steps : List UploadStep) (st : Store),
    (∀ s ∈ steps, goodStep apiToken s) →
    (∀ s ∈ steps, photoFilename s.dt ∉ listdir st ∧ sidecarName s.dt ∉ listdir st) →
    ((steps.map (fun s => s.dt.code)).Pairwise (· ≠ ·)) →
    runUploads pf apiToken steps st = st ++ (steps.map (stepFiles pf)).flatten := by
  intro steps
  induction steps with
  | nil => intro st _ _ _; simp [runUploads]
  | cons s rest ih =>
    intro st hg hfresh hcodes
    have hgs : goodStep apiToken s := hg s (List.mem_cons_self s rest)
    have hfs := hfresh s (List.mem_cons_self s rest)
    have hstep := uploadHandler_success pf apiToken s st hgs hfs.1 hfs.2
    have hrun : runUploads pf apiToken (s :: rest) st =
        runUploads pf apiToken rest
          ((uploadHandler pf apiToken s.dt s.epoch true true s.req st).store) := rfl
    rw [hrun, hstep]
    simp only [List.map_cons] at hcodes
    have hcodes' := List.pairwise_cons.mp hcodes
    have hne : ∀ r ∈ rest, s.dt.code ≠ r.dt.code := by
      intro r hr
      exact hcodes'.1 _ (List.mem_map_of_mem _ hr)
    have hfresh' : ∀ r ∈ rest, photoFilename r.dt ∉ listdir (st ++ stepFiles pf s) ∧
        sidecarName r.dt ∉ listdir (st ++ stepFiles pf s) := by
      intro r hr
      have hvr : r.dt.Valid := (hg r (List.mem_cons_of_mem _ hr)).1
      have hvs : s.dt.Valid := hgs.1
      have hfr := hfresh r (List.mem_cons_of_mem _ hr)
      have hld : listdir (stepFiles pf s) = [photoFilename s.dt, sidecarName s.dt] := rfl
      constructor
      · rw [listdir_append, hld]
        intro hmem
        rcases List.mem_append.mp hmem with hmem | hmem
        · exact hfr.1 hmem
        · rcases List.mem_cons.mp hmem with heq | hmem
          · exact hne r hr (((photoFilename_eq_iff r.dt s.dt hvr hvs).mp heq).symm)
          · rcases List.mem_cons.mp hmem with heq | hmem
            · exact sidecarName_ne_photoFilename s.dt r.dt heq.symm
            · simp at hmem
      · rw [listdir_append, hld]
        intro hmem
        rcases List.mem_append.mp hmem with hmem | hmem
        · exact hfr.2 hmem
        · rcases List.mem_cons.mp hmem with heq | hmem
          · exact sidecarName_ne_photoFilename r.dt s.dt heq
          · rcases List.mem_cons.mp hmem with heq | hmem
            · exact hne r hr (((sidecarName_eq_iff r.dt s.dt hvr hvs).mp heq).symm)
            · simp at hmem
    rw [ih (st ++ stepFiles pf s) (fun r hr => hg r (List.mem_cons_of_mem _ hr))
      hfresh' hcodes'.2]
    rw [List.map_cons, List.flatten_cons, List.append_assoc]

/-- `sorted(l, reverse=True)` on a strictly increasing list is its
reversal. -/
theorem pySortedDesc_of_pairwise_lt (l : List String)
    (h : l.Pairwise (· < ·)) : pySortedDesc l = l.reverse := by
  apply List.eq_of_perm_of_sorted (r := fun a b : String => b ≤ a)
  · exact (List.perm_insertionSort _ l).trans (List.reverse_perm l).symm
  · exact List.sorted_insertionSort _ l
  · show List.Pairwise _ l.reverse
    rw [List.pairwise_reverse]
    exact h.imp (fun hab => le_of_lt hab)

/-- The jpg names of the store a fault-free run creates, in creation
order: exactly the generated image names. -/
theorem jpgFiles_flatten_stepFiles (pf : String → Option ℚ) :
    ∀ (steps : List UploadStep),
    jpgFiles ((steps.map (stepFiles pf)).flatten) =
      steps.map (fun s => photoFilename s.dt) := by
  intro steps
  induction steps with
  | nil => rfl
  | cons s rest ih =>
    rw [List.map_cons, List.flatten_cons]
    unfold jpgFiles at ih ⊢
    rw [listdir_append, List.filter_append, ih]
    rw [show listdir (stepFiles pf s) = [photoFilename s.dt, sidecarName s.dt] from rfl]
    rw [show List.filter (fun f => isJpgName f) [photoFilename s.dt, sidecarName s.dt] =
        [photoFilename s.dt] from by
      rw [List.filter_cons, List.filter_cons]
      simp [isJpgName_photoFilename s.dt, isJpgName_sidecarName s.dt]]
    rfl

/-- Looking up a step's sidecar in the run's store finds its parsed
document. -/
theorem lookupFile_flatten_sidecar (pf : String → Option ℚ) :
    ∀ (steps : List UploadStep) (s : UploadStep), s ∈ steps →
    (∀ r ∈ steps, r.dt.Valid) →
    ((steps.map (fun r => r.dt.code)).Pairwise (· ≠ ·)) →
    lookupFile ((steps.map (stepFiles pf)).flatten) (sidecarName s.dt) =
      some (.meta (some (stepMeta pf s))) := by
  intro steps
  induction steps with
  | nil => intro s hs; exact absurd hs (List.not_mem_nil s)
  | cons r rest ih =>
    intro s hs hv hcodes
    rw [List.map_cons, List.flatten_cons]
    simp only [List.map_cons] at hcodes
    have hcodes' := List.pairwise_cons.mp hcodes
    have hvr : r.dt.Valid := hv r (List.mem_cons_self r rest)
    rcases List.mem_cons.mp hs with rfl | hs'
    · show List.lookup (sidecarName s.dt) _ = _
      rw [show stepFiles pf s ++ (rest.map (stepFiles pf)).flatten =
          (photoFilename s.dt, .img ((s.req.photo.getD ⟨"", []⟩).content)) ::
          (sidecarName s.dt, .meta (some (stepMeta pf s))) ::
          (rest.map (stepFiles pf)).flatten from rfl]
      rw [List.lookup_cons]
      rw [show (sidecarName s.dt == photoFilename s.dt) = false from by
        rw [beq_eq_false_iff_ne]
        exact sidecarName_ne_photoFilename s.dt s.dt]
      rw [List.lookup_cons]
      simp
    · have hvs : s.dt.Valid := hv s (List.mem_cons_of_mem _ hs')
      have hne : r.dt.code ≠ s.dt.code :=
        hcodes'.1 _ (List.mem_map_of_mem _ hs')
      show List.lookup (sidecarName s.dt) _ = _
      rw [show stepFiles pf r ++ (rest.map (stepFiles pf)).flatten =
          (photoFilename r.dt, .img ((r.req.photo.getD ⟨"", []⟩).content)) ::
          (sidecarName r.dt, .meta (some (stepMeta pf r))) ::
          (rest.map (stepFiles pf)).flatten from rfl]
      rw [List.lookup_cons]
      rw [show (sidecarName s.dt == photoFilename r.dt) = false from by
        rw [beq_eq_false_iff_ne]
        exact sidecarName_ne_photoFilename s.dt r.dt]
      rw [List.lookup_cons]
      rw [show (sidecarName s.dt == sidecarName r.dt) = false from by
        rw [beq_eq_false_iff_ne]
        intro heq
        exact hne (((sidecarName_eq_iff s.dt r.dt hvs hvr).mp heq).symm)]
      exact ih s hs' (fun x hx => hv x (List.mem_cons_of_mem _ hx)) hcodes'.2

/-- The listing loop succeeds and pairs every name with its metadata
when no sidecar read raises. -/
theorem collectEntries_of_no_raise (st : Store) : ∀ (L : List String),
    (∀ j ∈ L, readMeta st j ≠ none) →
    collectEntries st L = some (L.map (fun j => ⟨j, (readMeta st j).getD none⟩)) := by
  intro L
  induction L with
  | nil => intro _; rfl
  | cons j t ih =>
    intro h
    have hj := h j (List.mem_cons_self j t)
    unfold collectEntries
    match hm : readMeta st j with
    | none => exact absurd hm hj
    | some m =>
      rw [ih (fun x hx => h x (List.mem_cons_of_mem _ hx))]
      simp [hm]

/-- The listing loop raises as soon as some listed name's sidecar read
raises. -/
theorem collectEntries_raises (st : Store) : ∀ (L : List String),
    (∃ j ∈ L, readMeta st j = none) →
    collectEntries st L = none := by
  intro L
  induction L with
  | nil => rintro ⟨j, hj, -⟩; exact absurd hj (List.not_mem_nil j)
  | cons j t ih =>
    rintro ⟨x, hx, hxm⟩
    unfold collectEntries
    rcases List.mem_cons.mp hx with rfl | hx'
    · rw [hxm]
    · match hm : readMeta st j with
      | none => rfl
      | some m => rw [ih ⟨x, hx', hxm⟩]; rfl

/-- C1: for every sequence of valid uploads whose generated
second-granularity timestamps are pairwise distinct — successive
`datetime.now()` readings are non-decreasing, so distinctness makes the
sequence strictly increasing, which is the hypothesis here — `GET
/api/all` lists their entries in exactly reverse upload order; that
order is strictly descending chronologically (third conjunct reversed by
the second), because the lexicographic-descending sort of the generated
`photo_<YYYYMMDD_HHMMSS>.jpg` names coincides with chronological order
on valid readings (third conjunct). -/
theorem C1_listAll_descending (pf : String → Option ℚ) (apiToken : String)
    (steps : List UploadStep)
    (hgood : ∀ s ∈ steps, goodStep apiToken s)
    (hmono : (steps.map (fun s => s.dt.code)).Pairwise (· < ·)) :
    (api_all (runUploads pf apiToken steps [])).fileNames =
      some ((steps.map (fun s => photoFilename s.dt)).reverse) ∧
    ((steps.map (fun s => s.dt.code)).reverse).Pairwise (· > ·) ∧
    (∀ d1 d2 : DateTime, d1.Valid → d2.Valid →
      (photoFilename d1 < photoFilename d2 ↔ d1.code < d2.code)) := by
  have hne : (steps.map (fun s => s.dt.code)).Pairwise (· ≠ ·) :=
    hmono.imp (fun h => ne_of_lt h)
  have hfresh : ∀ s ∈ steps, photoFilename s.dt ∉ listdir ([] : Store) ∧
      sidecarName s.dt ∉ listdir ([] : Store) :=
    fun s _ => ⟨List.not_mem_nil _, List.not_mem_nil _⟩
  have hrun : runUploads pf apiToken steps [] = (steps.map (stepFiles pf)).flatten := by
    rw [runUploads_eq pf apiToken steps [] hgood hfresh hne, List.nil_append]
  have hv : ∀ s ∈ steps, s.dt.Valid := fun s hs => (hgood s hs).1
  have hjpg : jpgFiles (runUploads pf apiToken steps []) =
      steps.map (fun s => photoFilename s.dt) := by
    rw [hrun]
    exact jpgFiles_flatten_stepFiles pf steps
  have hfn_lt : (steps.map (fun s => photoFilename s.dt)).Pairwise (· < ·) := by
    rw [List.pairwise_map]
    exact (List.pairwise_map.mp hmono).imp_of_mem (fun ha hb hab =>
      (photoFilename_lt_iff _ _ (hv _ ha) (hv _ hb)).mpr hab)
  have hsort : pySortedDesc (jpgFiles (runUploads pf apiToken steps [])) =
      (steps.map (fun s => photoFilename s.dt)).reverse := by
    rw [hjpg]
    exact pySortedDesc_of_pairwise_lt _ hfn_lt
  have hread : ∀ j ∈ (steps.map (fun s => photoFilename s.dt)).reverse,
      readMeta (runUploads pf apiToken steps []) j ≠ none := by
    intro j hj
    rw [List.mem_reverse] at hj
    obtain ⟨s, hs, rfl⟩ := List.mem_map.mp hj
    unfold readMeta
    rw [show pySplitextStem (photoFilename s.dt) ++ ".json" = sidecarName s.dt from rfl,
      hrun, lookupFile_flatten_sidecar pf steps s hs hv hne]
    simp
  refine ⟨?_, ?_, ?_⟩
  · unfold api_all
    rw [hsort, collectEntries_of_no_raise _ _ hread]
    unfold AllResponse.fileNames
    simp
  · rw [List.pairwise_reverse]
    exact hmono
  · exact fun d1 d2 hd1 hd2 => photoFilename_lt_iff d1 d2 hd1 hd2

/-- Witness for C1: two authenticated uploads one second apart are
listed newest-first, i.e. in reverse upload order. -/
theorem C1_listAll_descending_witness :
    (api_all (runUploads (fun _ => none) "secret_token_123"
      [⟨⟨2024, 1, 1, 0, 0, 0⟩, 100,
        ⟨some "secret_token_123", none, some ⟨"a.jpg", [1]⟩, fun _ => none⟩⟩,
       ⟨⟨2024, 1, 1, 0, 0, 1⟩, 101,
        ⟨some "secret_token_123", none, some ⟨"a.jpg", [2]⟩, fun _ => none⟩⟩]
      [])).fileNames =
      some ["photo_20240101_000001.jpg", "photo_20240101_000000.jpg"] := by
  have h := (C1_listAll_descending (fun _ => none) "secret_token_123"
    [⟨⟨2024, 1, 1, 0, 0, 0⟩, 100,
      ⟨some "secret_token_123", none, some ⟨"a.jpg", [1]⟩, fun _ => none⟩⟩,
     ⟨⟨2024, 1, 1, 0, 0, 1⟩, 101,
      ⟨some "secret_token_123", none, some ⟨"a.jpg", [2]⟩, fun _ => none⟩⟩]
    (by
      intro s hs
      rcases List.mem_cons.mp hs with rfl | hs
      · exact ⟨by decide, by decide, ⟨⟨"a.jpg", [1]⟩, rfl, by decide⟩⟩
      · rcases List.mem_cons.mp hs with rfl | hs
        · exact ⟨by decide, by decide, ⟨⟨"a.jpg", [2]⟩, rfl, by decide⟩⟩
        · exact absurd hs (List.not_mem_nil s))
    (by decide)).1
  rw [h]
  rfl

/-- C2: an upload whose effective token (header `X-API-Key`, falling
back to query parameter `token`) is missing or differs from the
configured secret is answered `401 {ok:false}`, the store is unchanged
(no image, no sidecar), and no broadcast event is emitted. -/
theorem C2_unauthorized_no_write (pf : String → Option ℚ) (apiToken : String)
    (now : DateTime) (nowEpoch : Int) (saveOk metaSaveOk : Bool)
    (req : UploadRequest) (st : Store)
    (h : check_token req.headerKey req.queryToken apiToken = false) :
    uploadHandler pf apiToken now nowEpoch saveOk metaSaveOk req st =
      ⟨.unauthorized, st, []⟩ ∧
    UploadResponse.status .unauthorized = 401 ∧
    UploadResponse.okField .unauthorized = false := by
  refine ⟨?_, rfl, rfl⟩
  unfold uploadHandler
  rw [h]
  rfl

/-- Witness for C2: a wrong token against the configured default secret
is rejected without touching a nonempty store. -/
theorem C2_unauthorized_no_write_witness :
    check_token (some "wrong") none "secret_token_123" = false ∧
    uploadHandler (fun _ => none) "secret_token_123" ⟨2024, 1, 1, 0, 0, 0⟩ 0 true true
      ⟨some "wrong", none, some ⟨"a.jpg", [1]⟩, fun _ => none⟩
      [("old.jpg", .img [9])] =
      ⟨.unauthorized, [("old.jpg", .img [9])], []⟩ :=
  ⟨by decide,
   (C2_unauthorized_no_write (fun _ => none) "secret_token_123" ⟨2024, 1, 1, 0, 0, 0⟩
     0 true true ⟨some "wrong", none, some ⟨"a.jpg", [1]⟩, fun _ => none⟩
     [("old.jpg", .img [9])] (by decide)).1⟩

/-- Counterexample to C3 as stated: an authenticated upload whose
`photo` part has a non-empty filename but zero-length content is
answered `200 {ok:true}` and the empty image is persisted — not `400`,
and a file is written. -/
theorem C3_zero_length_counterexample :
    uploadHandler (fun _ => none) "secret_token_123" ⟨2024, 1, 1, 0, 0, 0⟩ 7 true true
      ⟨some "secret_token_123", none, some ⟨"photo.jpg", []⟩, fun _ => none⟩ [] =
    ⟨.success "photo_20240101_000000.jpg" 7,
     [("photo_20240101_000000.jpg", .img []),
      ("photo_20240101_000000.json", .meta (some [("received_ts", .int 7),
        ("photo_filename", .str "photo_20240101_000000.jpg")]))],
     [⟨"photo_20240101_000000.jpg", 7, false⟩]⟩ := by decide

/-- C3 (amended): the handler validates only that the `photo` part is
present and carries a non-empty *filename*; those failures are answered
`400 {ok:false}` with nothing persisted and nothing broadcast.
Zero-length file *content* is not checked and is accepted (see the
counterexample). -/
theorem C3_badRequest_no_write (pf : String → Option ℚ) (apiToken : String)
    (now : DateTime) (nowEpoch : Int) (saveOk metaSaveOk : Bool)
    (req : UploadRequest) (st : Store)
    (htok : check_token req.headerKey req.queryToken apiToken = true)
    (hbad : req.photo = none ∨ ∃ f, req.photo = some f ∧ f.filename = "") :
    (uploadHandler pf apiToken now nowEpoch saveOk metaSaveOk req st).response.status
      = 400 ∧
    (uploadHandler pf apiToken now nowEpoch saveOk metaSaveOk req st).response.okField
      = false ∧
    (uploadHandler pf apiToken now nowEpoch saveOk metaSaveOk req st).store = st ∧
    (uploadHandler pf apiToken now nowEpoch saveOk metaSaveOk req st).events = [] := by
  unfold uploadHandler
  rw [htok]
  rcases hbad with h | ⟨f, hf, hname⟩
  · rw [h]
    exact ⟨rfl, rfl, rfl, rfl⟩
  · rw [hf]
    simp only [if_pos rfl, if_pos hname]
    exact ⟨rfl, rfl, rfl, rfl⟩

/-- Witness for the amended C3: an authenticated request without a
`photo` part gets `400` and writes nothing. -/
theorem C3_badRequest_no_write_witness :
    check_token (some "secret_token_123") none "secret_token_123" = true ∧
    ((uploadHandler (fun _ => none) "secret_token_123" ⟨2024, 1, 1, 0, 0, 0⟩ 0 true true
        ⟨some "secret_token_123", none, none, fun _ => none⟩ []).response.status = 400 ∧
     (uploadHandler (fun _ => none) "secret_token_123" ⟨2024, 1, 1, 0, 0, 0⟩ 0 true true
        ⟨some "secret_token_123", none, none, fun _ => none⟩ []).response.okField = false ∧
     (uploadHandler (fun _ => none) "secret_token_123" ⟨2024, 1, 1, 0, 0, 0⟩ 0 true true
        ⟨some "secret_token_123", none, none, fun _ => none⟩ []).store = [] ∧
     (uploadHandler (fun _ => none) "secret_token_123" ⟨2024, 1, 1, 0, 0, 0⟩ 0 true true
        ⟨some "secret_token_123", none, none, fun _ => none⟩ []).events = []) :=
  ⟨by decide,
   C3_badRequest_no_write (fun _ => none) "secret_token_123" ⟨2024, 1, 1, 0, 0, 0⟩
     0 true true ⟨some "secret_token_123", none, none, fun _ => none⟩ []
     (by decide) (Or.inl rfl)⟩

/-- C5: when the image write itself fails, the authenticated, well-formed
upload is answered `500 {ok:false}`, the store is unchanged — the
sidecar write is never attempted — and no `new_photo` event is
emitted. -/
theorem C5_storage_failure (pf : String → Option ℚ) (apiToken : String)
    (now : DateTime) (nowEpoch : Int) (metaSaveOk : Bool)
    (req : UploadRequest) (st : Store) (f : PhotoFile)
    (htok : check_token req.headerKey req.queryToken apiToken = true)
    (hphoto : req.photo = some f) (hname : f.filename ≠ "") :
    uploadHandler pf apiToken now nowEpoch false metaSaveOk req st =
      ⟨.storageError, st, []⟩ ∧
    UploadResponse.status .storageError = 500 ∧
    UploadResponse.okField .storageError = false := by
  refine ⟨?_, rfl, rfl⟩
  unfold uploadHandler
  rw [htok, hphoto]
  simp only [if_pos rfl, if_neg hname]
  rfl

/-- Witness for C5: a failed image write on a concrete request yields
`500` and leaves the store empty. -/
theorem C5_storage_failure_witness :
    check_token (some "secret_token_123") none "secret_token_123" = true ∧
    (⟨"a.jpg", [1]⟩ : PhotoFile).filename ≠ "" ∧
    uploadHandler (fun _ => none) "secret_token_123" ⟨2024, 1, 1, 0, 0, 0⟩ 0 false true
      ⟨some "secret_token_123", none, some ⟨"a.jpg", [1]⟩, fun _ => none⟩ [] =
      ⟨.storageError, [], []⟩ :=
  ⟨by decide, by decide,
   (C5_storage_failure (fun _ => none) "secret_token_123" ⟨2024, 1, 1, 0, 0, 0⟩ 0 true
     ⟨some "secret_token_123", none, some ⟨"a.jpg", [1]⟩, fun _ => none⟩ []
     ⟨"a.jpg", [1]⟩ (by decide) rfl (by decide)).1⟩

/-- C6: when the image write succeeds but the sidecar write fails, the
image write is not rolled back (the store still gains the image and
only the image), the handler still broadcasts `new_photo`, and the call
returns `200 {ok:true, filename, timestamp}`. -/
theorem C6_metadata_failure_partial_success (pf : String → Option ℚ)
    (apiToken : String) (now : DateTime) (nowEpoch : Int)
    (req : UploadRequest) (st : Store) (f : PhotoFile)
    (htok : check_token req.headerKey req.queryToken apiToken = true)
    (hphoto : req.photo = some f) (hname : f.filename ≠ "") :
    uploadHandler pf apiToken now nowEpoch true false req st =
      ⟨.success (photoFilename now) nowEpoch,
       writeFile st (photoFilename now) (.img f.content),
       [⟨photoFilename now, nowEpoch,
         memKey (fullMeta pf req.form nowEpoch (photoFilename now)) "lat" &&
         memKey (fullMeta pf req.form nowEpoch (photoFilename now)) "lon"⟩]⟩ ∧
    (uploadHandler pf apiToken now nowEpoch true false req st).response.status = 200 ∧
    (uploadHandler pf apiToken now nowEpoch true false req st).response.okField
      = true := by
  have h : uploadHandler pf apiToken now nowEpoch true false req st =
      ⟨.success (photoFilename now) nowEpoch,
       writeFile st (photoFilename now) (.img f.content),
       [⟨photoFilename now, nowEpoch,
         memKey (fullMeta pf req.form nowEpoch (photoFilename now)) "lat" &&
         memKey (fullMeta pf req.form nowEpoch (photoFilename now)) "lon"⟩]⟩ := by
    unfold uploadHandler
    rw [htok, hphoto]
    simp only [if_pos rfl, if_neg hname]
    rfl
  exact ⟨h, by rw [h]; rfl, by rw [h]; rfl⟩

/-- Witness for C6: a concrete upload with a failing sidecar write keeps
the image and still succeeds with an event. -/
theorem C6_metadata_failure_partial_success_witness :
    check_token (some "secret_token_123") none "secret_token_123" = true ∧
    uploadHandler (fun _ => none) "secret_token_123" ⟨2024, 1, 1, 0, 0, 0⟩ 9 true false
      ⟨some "secret_token_123", none, some ⟨"a.jpg", [1]⟩, fun _ => none⟩ [] =
      ⟨.success (photoFilename ⟨2024, 1, 1, 0, 0, 0⟩) 9,
       writeFile [] (photoFilename ⟨2024, 1, 1, 0, 0, 0⟩) (.img [1]),
       [⟨photoFilename ⟨2024, 1, 1, 0, 0, 0⟩, 9,
         memKey (fullMeta (fun _ => none) (fun _ => none) 9
           (photoFilename ⟨2024, 1, 1, 0, 0, 0⟩)) "lat" &&
         memKey (fullMeta (fun _ => none) (fun _ => none) 9
           (photoFilename ⟨2024, 1, 1, 0, 0, 0⟩)) "lon"⟩]⟩ :=
  ⟨by decide,
   (C6_metadata_failure_partial_success (fun _ => none) "secret_token_123"
     ⟨2024, 1, 1, 0, 0, 0⟩ 9
     ⟨some "secret_token_123", none, some ⟨"a.jpg", [1]⟩, fun _ => none⟩ []
     ⟨"a.jpg", [1]⟩ (by decide) rfl (by decide)).1⟩

/-- Reading back a just-written file yields the written data, whether
the write created or overwrote the entry. -/
theorem lookupFile_writeFile_self (st : Store) (name : String) (d : FileData) :
    lookupFile (writeFile st name d) name = some d := by
  unfold writeFile lookupFile
  by_cases h : st.any (fun p => p.1 == name) = true
  · rw [if_pos h]
    induction st with
    | nil => simp at h
    | cons p t ih =>
      rw [List.any_cons] at h
      rw [List.map_cons]
      by_cases hp : (p.1 == name) = true
      · rw [if_pos hp, List.lookup_cons]
        simp
      · have hnp : (name == p.1) = false := by
          rw [beq_eq_false_iff_ne]
          intro he
          subst he
          simp at hp
        rw [if_neg hp, List.lookup_cons]
        simp only [hnp]
        apply ih
        simp only [hp, Bool.false_or] at h
        exact h
  · rw [if_neg h]
    induction st with
    | nil => simp [List.lookup_cons]
    | cons p t ih =>
      rw [List.any_cons, Bool.or_eq_true, not_or] at h
      have hnp : (name == p.1) = false := by
        rw [beq_eq_false_iff_ne]
        intro he
        subst he
        simp at h
      rw [List.cons_append, List.lookup_cons]
      simp only [hnp]
      exact ih (by simpa using h.2)

/-- Looking up a key in its own loop-iteration block. -/
theorem lookup_entryList_self (pf : String → Option ℚ)
    (form : String → Option String) (key : String) (rest : Meta) :
    List.lookup key (entryList pf form key ++ rest) =
      match metaEntry pf form key with
      | some v => some v
      | none => List.lookup key rest := by
  unfold entryList
  cases metaEntry pf form key with
  | none => rfl
  | some v =>
    rw [List.singleton_append, List.lookup_cons]
    simp

/-- Looking up a different key skips a loop-iteration block. -/
theorem lookup_entryList_ne (pf : String → Option ℚ)
    (form : String → Option String) (key k : String) (rest : Meta) (h : k ≠ key) :
    List.lookup k (entryList pf form key ++ rest) = List.lookup k rest := by
  unfold entryList
  cases metaEntry pf form key with
  | none => rfl
  | some v =>
    rw [List.singleton_append, List.lookup_cons,
      show (k == key) = false from beq_eq_false_iff_ne.mpr h]

/-- The sidecar document maps each recognized form key exactly as the
loop's one iteration for that key decided. -/
theorem lookup_fullMeta (pf : String → Option ℚ) (form : String → Option String)
    (ep : Int) (fn : String) (k : String) (hk : k ∈ metaKeys) :
    List.lookup k (fullMeta pf form ep fn) = metaEntry pf form k := by
  have hassoc : fullMeta pf form ep fn =
      entryList pf form "lat" ++ (entryList pf form "lon" ++
        (entryList pf form "accuracy" ++ (entryList pf form "location_ts" ++
          [("received_ts", .int ep), ("photo_filename", .str fn)]))) := by
    unfold fullMeta buildMeta
    simp [List.append_assoc]
  rw [hassoc]
  simp only [metaKeys, List.mem_cons, List.not_mem_nil, or_false] at hk
  rcases hk with rfl | rfl | rfl | rfl
  · rw [lookup_entryList_self]
    cases hm : metaEntry pf form "lat" with
    | some v => rfl
    | none =>
      rw [lookup_entryList_ne _ _ _ _ _ (by decide),
        lookup_entryList_ne _ _ _ _ _ (by decide),
        lookup_entryList_ne _ _ _ _ _ (by decide)]
      rfl
  · rw [lookup_entryList_ne _ _ _ _ _ (by decide), lookup_entryList_self]
    cases hm : metaEntry pf form "lon" with
    | some v => rfl
    | none =>
      rw [lookup_entryList_ne _ _ _ _ _ (by decide),
        lookup_entryList_ne _ _ _ _ _ (by decide)]
      rfl
  · rw [lookup_entryList_ne _ _ _ _ _ (by decide),
      lookup_entryList_ne _ _ _ _ _ (by decide), lookup_entryList_self]
    cases hm : metaEntry pf form "accuracy" with
    | some v => rfl
    | none =>
      rw [lookup_entryList_ne _ _ _ _ _ (by decide)]
      rfl
  · rw [lookup_entryList_ne _ _ _ _ _ (by decide),
      lookup_entryList_ne _ _ _ _ _ (by decide),
      lookup_entryList_ne _ _ _ _ _ (by decide), lookup_entryList_self]
    cases hm : metaEntry pf form "location_ts" with
    | some v => rfl
    | none => rfl

/-- A key is present in its own loop-iteration block exactly when its
form field is truthy. -/
theorem any_entryList_self (pf : String → Option ℚ)
    (form : String → Option String) (key : String) :
    (entryList pf form key).any (fun p => p.1 == key) = pyTruthy (form key) := by
  unfold entryList metaEntry pyTruthy
  cases form key with
  | none => rfl
  | some v =>
    by_cases hv : v = ""
    · simp [hv]
    · simp only [if_neg hv]
      cases pf v <;> simp [hv]

/-- A different key is never present in a loop-iteration block. -/
theorem any_entryList_ne (pf : String → Option ℚ)
    (form : String → Option String) (key k : String) (h : key ≠ k) :
    (entryList pf form key).any (fun p => p.1 == k) = false := by
  unfold entryList
  cases metaEntry pf form key with
  | none => rfl
  | some v => simp [h]

/-- `'k' in meta` on the sidecar document, for a recognized key, holds
exactly when that form field was provided non-empty. -/
theorem memKey_fullMeta (pf : String → Option ℚ) (form : String → Option String)
    (ep : Int) (fn : String) (k : String) (hk : k ∈ metaKeys) :
    memKey (fullMeta pf form ep fn) k = pyTruthy (form k) := by
  unfold memKey fullMeta buildMeta
  rw [List.any_append, List.any_append, List.any_append, List.any_append]
  simp only [metaKeys, List.mem_cons, List.not_mem_nil, or_false] at hk
  rcases hk with rfl | rfl | rfl | rfl
  · rw [any_entryList_self, any_entryList_ne _ _ _ _ (by decide),
      any_entryList_ne _ _ _ _ (by decide), any_entryList_ne _ _ _ _ (by decide)]
    simp
  · rw [any_entryList_self, any_entryList_ne _ _ _ _ (by decide),
      any_entryList_ne _ _ _ _ (by decide), any_entryList_ne _ _ _ _ (by decide)]
    simp
  · rw [any_entryList_self, any_entryList_ne _ _ _ _ (by decide),
      any_entryList_ne _ _ _ _ (by decide), any_entryList_ne _ _ _ _ (by decide)]
    simp
  · rw [any_entryList_self, any_entryList_ne _ _ _ _ (by decide),
      any_entryList_ne _ _ _ _ (by decide), any_entryList_ne _ _ _ _ (by decide)]
    simp

/-- C7: for each recognized form field (`lat`, `lon`, `accuracy`,
`location_ts`), the sidecar the handler stores maps the key to a number
when `float(val)` parses, to the raw string when it does not, and omits
the key entirely when the field is absent or empty — the third conjunct
states that policy definitionally, the second locates it in the stored
document, and the first locates the stored document in the store. -/
theorem C7_metadata_field_policy (pf : String → Option ℚ) (apiToken : String)
    (now : DateTime) (nowEpoch : Int) (req : UploadRequest) (st : Store)
    (f : PhotoFile)
    (htok : check_token req.headerKey req.queryToken apiToken = true)
    (hphoto : req.photo = some f) (hname : f.filename ≠ "")
    (k : String) (hk : k ∈ metaKeys) :
    lookupFile (uploadHandler pf apiToken now nowEpoch true true req st).store
      (pySplitextStem (photoFilename now) ++ ".json") =
      some (.meta (some (fullMeta pf req.form nowEpoch (photoFilename now)))) ∧
    List.lookup k (fullMeta pf req.form nowEpoch (photoFilename now)) =
      metaEntry pf req.form k ∧
    metaEntry pf req.form k =
      (match req.form k with
       | none => none
       | some v =>
         if v = "" then none
         else
           match pf v with
           | some q => some (.num q)
           | none => some (.str v)) := by
  refine ⟨?_, lookup_fullMeta pf req.form nowEpoch _ k hk, rfl⟩
  unfold uploadHandler
  rw [htok, hphoto]
  simp only [if_pos rfl, if_neg hname]
  exact lookupFile_writeFile_self _ _ _

/-- Witness for C7: a parseable `lat`, an unparseable `lon`, an empty
`accuracy` and an absent `location_ts` are stored as number, raw
string, omitted, omitted respectively. -/
theorem C7_metadata_field_policy_witness :
    (∀ k ∈ metaKeys,
      lookupFile (uploadHandler
          (fun v => if v = "40.7" then some ((407 : ℚ) / 10) else none)
          "secret_token_123" ⟨2024, 1, 1, 0, 0, 0⟩ 3 true true
          ⟨some "secret_token_123", none, some ⟨"a.jpg", [1]⟩,
           fun key => if key = "lat" then some "40.7"
             else if key = "lon" then some "abc"
             else if key = "accuracy" then some "" else none⟩ []).store
        (pySplitextStem (photoFilename ⟨2024, 1, 1, 0, 0, 0⟩) ++ ".json") =
        some (.meta (some (fullMeta
          (fun v => if v = "40.7" then some ((407 : ℚ) / 10) else none)
          (fun key => if key = "lat" then some "40.7"
             else if key = "lon" then some "abc"
             else if key = "accuracy" then some "" else none)
          3 (photoFilename ⟨2024, 1, 1, 0, 0, 0⟩))))) ∧
    List.lookup "lat" (fullMeta
        (fun v => if v = "40.7" then some ((407 : ℚ) / 10) else none)
        (fun key => if key = "lat" then some "40.7"
           else if key = "lon" then some "abc"
           else if key = "accuracy" then some "" else none)
        3 (photoFilename ⟨2024, 1, 1, 0, 0, 0⟩)) =
      some (.num ((407 : ℚ) / 10)) ∧
    List.lookup "lon" (fullMeta
        (fun v => if v = "40.7" then some ((407 : ℚ) / 10) else none)
        (fun key => if key = "lat" then some "40.7"
           else if key = "lon" then some "abc"
           else if key = "accuracy" then some "" else none)
        3 (photoFilename ⟨2024, 1, 1, 0, 0, 0⟩)) = some (.str "abc") ∧
    List.lookup "accuracy" (fullMeta
        (fun v => if v = "40.7" then some ((407 : ℚ) / 10) else none)
        (fun key => if key = "lat" then some "40.7"
           else if key = "lon" then some "abc"
           else if key = "accuracy" then some "" else none)
        3 (photoFilename ⟨2024, 1, 1, 0, 0, 0⟩)) = none ∧
    List.lookup "location_ts" (fullMeta
        (fun v => if v = "40.7" then some ((407 : ℚ) / 10) else none)
        (fun key => if key = "lat" then some "40.7"
           else if key = "lon" then some "abc"
           else if key = "accuracy" then some "" else none)
        3 (photoFilename ⟨2024, 1, 1, 0, 0, 0⟩)) = none := by
  refine ⟨?_, ?_, ?_, ?_, ?_⟩
  · intro k hk
    exact (C7_metadata_field_policy
      (fun v => if v = "40.7" then some ((407 : ℚ) / 10) else none)
      "secret_token_123" ⟨2024, 1, 1, 0, 0, 0⟩ 3
      ⟨some "secret_token_123", none, some ⟨"a.jpg", [1]⟩,
       fun key => if key = "lat" then some "40.7"
         else if key = "lon" then some "abc"
         else if key = "accuracy" then some "" else none⟩ []
      ⟨"a.jpg", [1]⟩ (by decide) rfl (by decide) k hk).1
  · exact ((C7_metadata_field_policy
      (fun v => if v = "40.7" then some ((407 : ℚ) / 10) else none)
      "secret_token_123" ⟨2024, 1, 1, 0, 0, 0⟩ 3
      ⟨some "secret_token_123", none, some ⟨"a.jpg", [1]⟩,
       fun key => if key = "lat" then some "40.7"
         else if key = "lon" then some "abc"
         else if key = "accuracy" then some "" else none⟩ []
      ⟨"a.jpg", [1]⟩ (by decide) rfl (by decide) "lat" (by decide)).2.1).trans rfl
  · exact ((C7_metadata_field_policy
      (fun v => if v = "40.7" then some ((407 : ℚ) / 10) else none)
      "secret_token_123" ⟨2024, 1, 1, 0, 0, 0⟩ 3
      ⟨some "secret_token_123", none, some ⟨"a.jpg", [1]⟩,
       fun key => if key = "lat" then some "40.7"
         else if key = "lon" then some "abc"
         else if key = "accuracy" then some "" else none⟩ []
      ⟨"a.jpg", [1]⟩ (by decide) rfl (by decide) "lon" (by decide)).2.1).trans rfl
  · exact ((C7_metadata_field_policy
      (fun v => if v = "40.7" then some ((407 : ℚ) / 10) else none)
      "secret_token_123" ⟨2024, 1, 1, 0, 0, 0⟩ 3
      ⟨some "secret_token_123", none, some ⟨"a.jpg", [1]⟩,
       fun key => if key = "lat" then some "40.7"
         else if key = "lon" then some "abc"
         else if key = "accuracy" then some "" else none⟩ []
      ⟨"a.jpg", [1]⟩ (by decide) rfl (by decide) "accuracy" (by decide)).2.1).trans rfl
  · exact ((C7_metadata_field_policy
      (fun v => if v = "40.7" then some ((407 : ℚ) / 10) else none)
      "secret_token_123" ⟨2024, 1, 1, 0, 0, 0⟩ 3
      ⟨some "secret_token_123", none, some ⟨"a.jpg", [1]⟩,
       fun key => if key = "lat" then some "40.7"
         else if key = "lon" then some "abc"
         else if key = "accuracy" then some "" else none⟩ []
      ⟨"a.jpg", [1]⟩ (by decide) rfl (by decide) "location_ts" (by decide)).2.1).trans rfl

/-- C10: a successful upload broadcasts exactly one `new_photo` event
whose `has_location` is true precisely when both the `lat` and the
`lon` keys made it into the metadata dict, i.e. when both form fields
were provided with non-empty values; one or neither yields false.  The
last two conjuncts identify key presence in the dict with form-field
truthiness. -/
theorem C10_has_location (pf : String → Option ℚ) (apiToken : String)
    (now : DateTime) (nowEpoch : Int) (metaSaveOk : Bool)
    (req : UploadRequest) (st : Store) (f : PhotoFile)
    (htok : check_token req.headerKey req.queryToken apiToken = true)
    (hphoto : req.photo = some f) (hname : f.filename ≠ "") :
    (uploadHandler pf apiToken now nowEpoch true metaSaveOk req st).events =
      [⟨photoFilename now, nowEpoch,
        pyTruthy (req.form "lat") && pyTruthy (req.form "lon")⟩] ∧
    memKey (fullMeta pf req.form nowEpoch (photoFilename now)) "lat" =
      pyTruthy (req.form "lat") ∧
    memKey (fullMeta pf req.form nowEpoch (photoFilename now)) "lon" =
      pyTruthy (req.form "lon") := by
  have hlat := memKey_fullMeta pf req.form nowEpoch (photoFilename now) "lat" (by decide)
  have hlon := memKey_fullMeta pf req.form nowEpoch (photoFilename now) "lon" (by decide)
  refine ⟨?_, hlat, hlon⟩
  unfold uploadHandler
  rw [htok, hphoto]
  simp only [if_pos rfl, if_neg hname]
  cases metaSaveOk <;> simp [hlat, hlon]

/-- Witness for C10: providing only `lat` yields `has_location` false;
the dict carries `lat` but not `lon`. -/
theorem C10_has_location_witness :
    (uploadHandler (fun _ => none) "secret_token_123" ⟨2024, 1, 1, 0, 0, 0⟩ 4 true true
      ⟨some "secret_token_123", none, some ⟨"a.jpg", [1]⟩,
       fun key => if key = "lat" then some "1" else none⟩ []).events =
      [⟨photoFilename ⟨2024, 1, 1, 0, 0, 0⟩, 4,
        pyTruthy (some "1") && pyTruthy none⟩] ∧
    (pyTruthy (some "1") && pyTruthy none) = false :=
  ⟨(C10_has_location (fun _ => none) "secret_token_123" ⟨2024, 1, 1, 0, 0, 0⟩ 4 true
     ⟨some "secret_token_123", none, some ⟨"a.jpg", [1]⟩,
      fun key => if key = "lat" then some "1" else none⟩ []
     ⟨"a.jpg", [1]⟩ (by decide) rfl (by decide)).1, by decide⟩

/-- C8: when the store holds no jpg images, `GET /api/latest` answers
success with a null filename — `200 {ok:true, filename:null}` — never a
failure response. -/
theorem C8_latest_empty (getmtime : String → Int) (st : Store)
    (h : jpgFiles st = []) :
    api_latest getmtime st = .empty ∧
    (api_latest getmtime st).status = 200 ∧
    (api_latest getmtime st).okField = true ∧
    (api_latest getmtime st).filenameField = none := by
  have he : api_latest getmtime st = .empty := by
    unfold api_latest
    rw [h]
    rfl
  exact ⟨he, by rw [he]; rfl, by rw [he]; rfl, by rw [he]; rfl⟩

/-- Witness for C8: the empty uploads directory. -/
theorem C8_latest_empty_witness :
    jpgFiles [] = [] ∧ api_latest (fun _ => 0) [] = .empty :=
  ⟨rfl, (C8_latest_empty (fun _ => 0) [] rfl).1⟩

/-- C9: a `command` from a connected client is re-emitted with
`broadcast=True`: every currently connected session — the sender
included — receives the identical `{type: ...}` object, and the hub
never branches on the `type` value (the statement holds uniformly in
`v`, including non-string values and `null`). -/
theorem C9_command_relay (connected : List String) (sender : String) (v : JVal)
    (hs : sender ∈ connected) :
    on_command connected (some [("type", v)]) =
      connected.map (fun sid => (sid, [("type", v)])) ∧
    (sender, [("type", v)]) ∈ on_command connected (some [("type", v)]) := by
  have h : on_command connected (some [("type", v)]) =
      connected.map (fun sid => (sid, [("type", v)])) := by
    unfold on_command pyDictGet
    simp [List.lookup_cons]
  exact ⟨h, h ▸ List.mem_map_of_mem _ hs⟩

/-- Witness for C9: a `TAKE_PHOTO` command sent by `phone` reaches both
`web` and `phone` verbatim. -/
theorem C9_command_relay_witness :
    on_command ["web", "phone"] (some [("type", .str "TAKE_PHOTO")]) =
      [("web", [("type", .str "TAKE_PHOTO")]),
       ("phone", [("type", .str "TAKE_PHOTO")])] ∧
    ("phone", [("type", JVal.str "TAKE_PHOTO")]) ∈
      on_command ["web", "phone"] (some [("type", .str "TAKE_PHOTO")]) :=
  ⟨((C9_command_relay ["web", "phone"] "phone" (.str "TAKE_PHOTO")
      (by decide)).1).trans rfl,
   (C9_command_relay ["web", "phone"] "phone" (.str "TAKE_PHOTO") (by decide)).2⟩

/-- Counterexample to C4 as stated: a store with one image whose sidecar
exists but fails to parse makes `GET /api/all` answer the `except`
branch — `500 {ok:false}` with no entries — rather than listing the
entry with `metadata: null`. -/
theorem C4_parse_failure_counterexample :
    api_all [("a.jpg", .img []), ("a.json", .meta none)] = .error ∧
    AllResponse.status .error = 500 ∧
    AllResponse.fileNames (.error) = none :=
  ⟨by decide, rfl, rfl⟩

/-- C4 (amended): an entry whose sidecar is absent is listed with
`metadata: null` — provided every sidecar that does exist among the
listed images parses; if any listed image's sidecar exists but fails to
parse, the single try/except aborts the whole listing with `500` and no
entries are returned (see the counterexample). -/
theorem C4_listing_metadata (st : Store) :
    ((∀ j ∈ pySortedDesc (jpgFiles st), readMeta st j ≠ none) →
      api_all st = .ok ((pySortedDesc (jpgFiles st)).map
        (fun j => ⟨j, (readMeta st j).getD none⟩)) ∧
      ∀ j ∈ pySortedDesc (jpgFiles st),
        lookupFile st (pySplitextStem j ++ ".json") = none →
        (⟨j, none⟩ : AllEntry) ∈ (pySortedDesc (jpgFiles st)).map
          (fun j => ⟨j, (readMeta st j).getD none⟩)) ∧
    ((∃ j ∈ pySortedDesc (jpgFiles st), readMeta st j = none) →
      api_all st = .error) := by
  constructor
  · intro h
    constructor
    · unfold api_all
      rw [collectEntries_of_no_raise st _ h]
    · intro j hj habs
      have hr : readMeta st j = some none := by
        unfold readMeta
        rw [habs]
      refine List.mem_map.mpr ⟨j, hj, ?_⟩
      rw [hr]
      rfl
  · rintro ⟨j, hj, hm⟩
    unfold api_all
    rw [collectEntries_raises st _ ⟨j, hj, hm⟩]

/-- Witness for the amended C4: an image with no sidecar is listed with
null metadata; an image with an unparseable sidecar turns the whole
listing into an error. -/
theorem C4_listing_metadata_witness :
    api_all [("a.jpg", FileData.img [])] =
      .ok [⟨"a.jpg", none⟩] ∧
    api_all [("b.jpg", FileData.img []), ("b.json", FileData.meta none)] =
      .error :=
  ⟨((C4_listing_metadata [("a.jpg", FileData.img [])]).1 (by decide)).1.trans
     (by decide),
   (C4_listing_metadata [("b.jpg", FileData.img []), ("b.json", FileData.meta none)]).2
     ⟨"b.jpg", by decide, by decide⟩⟩
